import Mathlib

/-!
Verification of the SQL proxy / gatekeeper routing core
(LOG8415E final assignment repository).

The Python sources are shallowly embedded: pure functions become Lean
functions on `String` / `List Char`; the MySQL driver, the `ping`
subprocess and `random.choice` become explicit oracle parameters; the
router's mutable `state` dict becomes explicit state passing.
-/

namespace Proxy

/-! ## Python string primitives

`str.strip`, `str.lower`, `str.split(None, 1)`, `str.startswith` and the
`in` substring test, embedded on `List Char`.  Python's default strip and
split treat ASCII whitespace (space, tab, LF, VT, FF, CR) as separators.
-/

/-- ASCII whitespace as recognised by Python `str.strip()` / `str.split()`. -/
def pySpace (c : Char) : Bool :=
  c = ' ' || c = '\t' || c = '\n' || c = '\r' || c = Char.ofNat 11 || c = Char.ofNat 12

/-- Python `s.lstrip()` on the character list. -/
def pyLstrip (l : List Char) : List Char := l.dropWhile pySpace

/-- Python `s.rstrip()` on the character list. -/
def pyRstrip (l : List Char) : List Char := (l.reverse.dropWhile pySpace).reverse

/-- Python `s.strip()` on the character list. -/
def pyStripL (l : List Char) : List Char := pyRstrip (pyLstrip l)

/-- Python `s.strip()`. -/
def pyStrip (s : String) : String := String.mk (pyStripL s.data)

/-- Python `s.lower()` (ASCII queries only appear in this code base). -/
def pyLower (s : String) : String := String.mk (s.data.map Char.toLower)

/-- Python `s.startswith(p)`. -/
def pyStartsWith (s p : String) : Bool := p.data.isPrefixOf s.data

/-- Python `s.startswith((p1, ..., pn))`. -/
def pyStartsWithAny (s : String) (ps : List String) : Bool :=
  ps.any (fun p => pyStartsWith s p)

/-- Python `needle in hay` (substring occurrence) on character lists. -/
def pyOccursIn (needle : List Char) : List Char → Bool
  | [] => needle.isEmpty
  | c :: t => needle.isPrefixOf (c :: t) || pyOccursIn needle t

/-- Python `needle in hay` on strings. -/
def pyContainsSub (hay needle : String) : Bool := pyOccursIn needle.data hay.data

/-- First field of Python `s.split(None, 1)`: drop leading whitespace, take
the maximal run of non-whitespace.  (On a string with no non-whitespace
characters Python `split` returns `[]` and indexing `[0]` would raise; the
embedded callers guard that case exactly as the source does.) -/
def pySplitFirst (l : List Char) : List Char :=
  (l.dropWhile pySpace).takeWhile (fun c => !pySpace c)

/-! ## `proxy/router.py` — `classify_query` -/

/-- Embeds `classify_query` (`proxy/router.py` lines 10–20):
`first = query.strip().split(None, 1)[0].lower() if query.strip() else ""`,
then `first in ("select", "show", "describe", "explain")` decides read. -/
def classify_query (query : String) : String :=
  let first : String :=
    if (pyStripL query.data) = [] then ""
    else String.mk ((pySplitFirst (pyStripL query.data)).map Char.toLower)
  if first = "select" ∨ first = "show" ∨ first = "describe" ∨ first = "explain" then
    "read"
  else
    "write"

/-- Spec-side reading of §4.1: the first whitespace-delimited word of the
query, lower-cased, taken directly after any leading whitespace (no
trailing strip mentioned by the spec). -/
def specFirstWordLower (query : String) : String :=
  String.mk ((pySplitFirst query.data).map Char.toLower)

/-! ## `proxy/strategies/` — the three routing strategies

A host is a string.  Latencies are rationals (the Python driver returns a
float of milliseconds).  `ping_host` (`proxy/utils/ping.py`) is embedded as
an oracle `ping : Host → Option ℚ`: `none` is a failed probe.  The shared
router state `state["worker_latencies"]` is an insertion-ordered dict,
embedded as an association list.  `random.choice(l)` is embedded as
`l[k % len(l)]` for an oracle index `k` drawn uniformly by the caller. -/

abbrev Host := String

abbrev LatencyMap := List (Host × ℚ)

/-- Embeds `DirectStrategy.choose_target` (`proxy/strategies/direct.py`):
always the manager. -/
def directChooseTarget (_query_type : String) (manager_host : Host)
    (_worker_hosts : List Host) : Host :=
  manager_host

/-- Embeds `RandomChoiceStrategy.choose_target`
(`proxy/strategies/random.py` lines 13–23): writes and empty worker lists
go to the manager, otherwise `random.choice(worker_hosts)`, the random
draw being the oracle index `k`. -/
def randomChooseTarget (k : ℕ) (query_type : String) (manager_host : Host)
    (worker_hosts : List Host) : Host :=
  if query_type = "write" ∨ worker_hosts = [] then manager_host
  else worker_hosts.getD (k % worker_hosts.length) manager_host

/-- The probing loop of `LatencyBasedStrategy.choose_target`
(`proxy/strategies/latency_based.py` lines 28–32): ping every worker in
list order, keeping `(w, latency)` exactly when the probe succeeded. -/
def probeWorkers (ping : Host → Option ℚ) (worker_hosts : List Host) : LatencyMap :=
  worker_hosts.filterMap (fun w => (ping w).map (fun lat => (w, lat)))

/-- The scan performed by `min(latencies, key=latencies.get)` on a
non-empty insertion-ordered dict, tracking the current best entry:
Python's `min` keeps the earliest key among those with the minimal value
(it replaces the running best only on a strictly smaller value). -/
def minPair : Host × ℚ → LatencyMap → Host × ℚ
  | p, [] => p
  | p, q :: t => if q.2 < p.2 then minPair q t else minPair p t

/-- Python `min(latencies, key=latencies.get)` returns the key of the
winning entry. -/
def minByVal (p : Host × ℚ) (t : LatencyMap) : Host := (minPair p t).1

/-- Embeds `LatencyBasedStrategy.choose_target`
(`proxy/strategies/latency_based.py` lines 13–42).  Returns the chosen
host, the state after the call (`state["worker_latencies"]`), and the
number of `ping_host` calls issued. -/
def latencyChooseTarget (ping : Host → Option ℚ) (query_type : String)
    (manager_host : Host) (worker_hosts : List Host) (state : LatencyMap) :
    Host × LatencyMap × ℕ :=
  if query_type = "write" ∨ worker_hosts = [] then (manager_host, state, 0)
  else
    let latencies := if state = [] then probeWorkers ping worker_hosts else state
    let probes := if state = [] then worker_hosts.length else 0
    match latencies with
    | [] => (manager_host, [], probes)
    | p :: t => (minByVal p t, p :: t, probes)

/-- Spec-side reading of §4.2 tie-breaking: the first host in the recorded
map whose latency is less than or equal to every recorded latency. -/
def specFirstMin (l : LatencyMap) : Option Host :=
  (l.find? (fun x => l.all (fun y => decide (x.2 ≤ y.2)))).map Prod.fst

/-! ## `proxy/router.py` — strategy registry and dispatch -/

inductive Strategy
  | direct
  | random
  | custom
  deriving DecidableEq, Repr

/-- The `Router.__init__` registry `self.strategies` as a name lookup. -/
def strategiesLookup (name : String) : Option Strategy :=
  if name = "direct" then some .direct
  else if name = "random" then some .random
  else if name = "custom" then some .custom
  else none

/-- Embeds `Router.get_strategy` (`proxy/router.py` lines 38–39):
`self.strategies.get(name, self.strategies[config.DEFAULT_STRATEGY])`.
Python evaluates the fallback argument eagerly, so an unregistered default
raises `KeyError` (`none`) for every name. -/
def get_strategy (default_strategy name : String) : Option Strategy :=
  match strategiesLookup default_strategy with
  | none => none
  | some dflt => some ((strategiesLookup name).getD dflt)

/-- Dispatch of `Router.choose_target` (`proxy/router.py` lines 41–49) to
the selected strategy, with the oracles made explicit. -/
def strategyChooseTarget (ping : Host → Option ℚ) (k : ℕ) (s : Strategy)
    (query_type : String) (manager_host : Host) (worker_hosts : List Host)
    (state : LatencyMap) : Host × LatencyMap × ℕ :=
  match s with
  | .direct => (directChooseTarget query_type manager_host worker_hosts, state, 0)
  | .random => (randomChooseTarget k query_type manager_host worker_hosts, state, 0)
  | .custom => latencyChooseTarget ping query_type manager_host worker_hosts state

/-- Embeds `Router.choose_target` (`proxy/router.py` lines 41–49):
classify, resolve the strategy name (with the configured default), then
delegate.  `none` models the `KeyError` of an unregistered default. -/
def routerChooseTarget (ping : Host → Option ℚ) (k : ℕ)
    (default_strategy : String) (query strategy_name : String)
    (manager_host : Host) (worker_hosts : List Host) (state : LatencyMap) :
    Option (Host × LatencyMap × ℕ) :=
  match get_strategy default_strategy strategy_name with
  | none => none
  | some s =>
      some (strategyChooseTarget ping k s (classify_query query)
        manager_host worker_hosts state)

/-! ## `proxy/app.py` — `choose_host` and the `/sql` handler core

`choose_host` (lines 29–61) is the simplified in-app strategy selector:
note that its `random` branch draws from `[manager] + workers`, and its
read test is `startswith("select")` only.  The `isinstance(workers, str)`
branch never fires with the list produced by `proxy/config.py`, so the
embedding takes the worker list directly. -/

/-- Embeds `choose_host` (`proxy/app.py` lines 29–61).  `strategy` and
`query` are `Option`s because the JSON body may omit them (`data.get`). -/
def choose_host (k : ℕ) (strategy : Option String) (query : Option String)
    (manager : Host) (workers : List Host) : Host :=
  let all_hosts := if workers = [] then [manager] else manager :: workers
  let s := pyLower (strategy.getD "direct")
  let q_lower := pyLower (pyStrip (query.getD ""))
  let is_read := pyStartsWith q_lower "select"
  if s = "direct" then manager
  else if s = "random" then all_hosts.getD (k % all_hosts.length) manager
  else if s = "custom" then
    if is_read ∧ workers ≠ [] then workers.getD (k % workers.length) manager
    else manager
  else manager

/-- Values in a result row (cell contents are opaque to the proxy). -/
abbrev Cell := String

/-- What the MySQL cursor holds after `cursor.execute(query)` succeeded:
the fetchable rows, the column names of `cursor.description`, and
`cursor.rowcount`. -/
structure CursorData where
  rows : List (List Cell)
  columns : List String
  rowcount : ℤ
  deriving DecidableEq, Repr

/-- Response body of the `/sql` handler on a successful execution. -/
inductive SqlResponse
  | rows (result : List (List (String × Cell)))
  | affected (n : ℤ)
  deriving DecidableEq, Repr

/-- Embeds the result branch of `handle_sql` (`proxy/app.py` lines
95–105), given the cursor contents after a successful `execute`.  Returns
the JSON payload and whether `conn.commit()` was called.
`dict(zip(columns, row))` pairs each column name with the row value,
truncating at the shorter sequence, which is `List.zip`. -/
def handleSqlResult (query : String) (cur : CursorData) : SqlResponse × Bool :=
  if pyStartsWith (pyLower (pyStrip query)) "select" then
    (SqlResponse.rows (cur.rows.map (fun row => cur.columns.zip row)), false)
  else
    (SqlResponse.affected cur.rowcount, true)

/-! ## `proxy/db.py` — `execute_query` resource handling

Each driver call can succeed, raise `mysql.connector.Error`, or raise an
unexpected exception.  The embedding runs the `try/except Error/finally`
shape of `execute_query` (lines 22–53) and records the resource events it
performs. -/

inductive StepRes
  | ok
  | sqlErr
  | exn
  deriving DecidableEq, Repr

/-- Outcomes of the driver calls made inside the `try` block, in program
order: `get_connection`, `conn.cursor()`, `cursor.execute`, then
`cursor.fetchall()` for reads or `conn.commit()` for writes. -/
structure DbDriver where
  connect : StepRes
  mkCursor : StepRes
  exec : StepRes
  finish : StepRes
  deriving DecidableEq, Repr

inductive ResEvent
  | openConn
  | openCursor
  | closeCursor
  | closeConn
  deriving DecidableEq, Repr

/-- How `execute_query` terminates: a returned value, an error message
returned by the `except Error` arm, or an unexpected exception propagated
to the caller after the `finally` block ran. -/
inductive DbOutcome
  | returned
  | errorReturned
  | raised
  deriving DecidableEq, Repr

/-- The `finally` block of `execute_query` (lines 49–53): close the cursor
and the connection exactly when the corresponding variable is non-`None`. -/
def dbFinally (connOpen cursorOpen : Bool) : List ResEvent :=
  (if cursorOpen then [ResEvent.closeCursor] else []) ++
    (if connOpen then [ResEvent.closeConn] else [])

/-- Embeds `execute_query` (`proxy/db.py` lines 22–53) as its resource
trace: the events performed and the way the call terminates.  A `sqlErr`
is caught by `except Error` (error return); an `exn` propagates; both run
the `finally` block first. -/
def execute_query_trace (d : DbDriver) (is_read : Bool) : List ResEvent × DbOutcome :=
  match d.connect with
  | .sqlErr => (dbFinally false false, .errorReturned)
  | .exn => (dbFinally false false, .raised)
  | .ok =>
    match d.mkCursor with
    | .sqlErr => ([ResEvent.openConn] ++ dbFinally true false, .errorReturned)
    | .exn => ([ResEvent.openConn] ++ dbFinally true false, .raised)
    | .ok =>
      let opened := [ResEvent.openConn, ResEvent.openCursor]
      match d.exec with
      | .sqlErr => (opened ++ dbFinally true true, .errorReturned)
      | .exn => (opened ++ dbFinally true true, .raised)
      | .ok =>
        -- the read branch then runs fetchall, the write branch commit;
        -- either way the next fallible driver call is `d.finish`
        match d.finish with
        | .sqlErr => (opened ++ dbFinally true true, .errorReturned)
        | .exn => (opened ++ dbFinally true true, .raised)
        | .ok => (opened ++ dbFinally true true, .returned)

/-- The read test of `execute_query` (`proxy/db.py` lines 34–36):
`query.strip().lower().startswith(("select", "show", "describe", "explain"))`. -/
def dbIsRead (query : String) : Bool :=
  pyStartsWithAny (pyLower (pyStrip query)) ["select", "show", "describe", "explain"]

/-- Result branch of `execute_query` (`proxy/db.py` lines 40–45) on a
fully successful execution: reads return the raw fetched rows without
committing, writes commit and return `cursor.rowcount`. -/
def execute_query_result (query : String) (host : Host) (cur : CursorData) :
    (List (List Cell) ⊕ ℤ) × String × Bool :=
  if dbIsRead query then
    (Sum.inl cur.rows, "Executed READ on " ++ host, false)
  else
    (Sum.inr cur.rowcount, "Executed WRITE on " ++ host, true)

end Proxy

namespace FinalAuto2

/-! ## `src/final-auto2.py` — proxy variant with write fan-out

The proxy application written by the deployment script.  Worker access is
by connection config; at this level a worker is identified by its host
string.  Per-worker replication attempts (connect/execute/commit on the
worker, `final-auto2.py` lines 246–252) succeed or raise; the oracle
`rstep` gives each worker's outcome, `none` meaning success and `some e`
an exception message `e`. -/

open Proxy (Host pyStrip pyLower pyStartsWith pyStartsWithAny pyContainsSub)

/-- Embeds `is_write_query` (`final-auto2.py` lines 215–220). -/
def is_write_query (q : String) : Bool :=
  pyStartsWithAny (pyLower (pyStrip q))
    ["insert", "update", "delete", "replace", "create", "alter", "drop"]

/-- Embeds `replicate_write_to_workers` (`final-auto2.py` lines 243–256):
one `{host, status}` entry per worker, `"OK"` on success and
`"ERROR: " + e` when the attempt raised `e`. -/
def replicate_write_to_workers (rstep : Host → Option String)
    (workers : List Host) : List (Host × String) :=
  workers.map (fun w =>
    match rstep w with
    | none => (w, "OK")
    | some e => (w, "ERROR: " ++ e))

/-- Driver outcomes for the manager-side `try` block of `route_sql`
(`final-auto2.py` lines 285–298): `connect`, `cursor.execute`, and
`conn.commit` each succeed (`none`) or raise a message.  (`conn.cursor()`
and `fetchall` never fail separately at this granularity; folding them
into the adjacent calls loses nothing the claims touch.) -/
structure TargetDriver where
  connect : Option String
  exec : Option String
  commit : Option String
  fetched : List (List Proxy.Cell)
  deriving DecidableEq, Repr

/-- HTTP-level response of `route_sql`. -/
inductive Resp
  | rows (data : List (List Proxy.Cell))
  | okRepl (replication : Option (List (Host × String)))
  | err (msg : String) (code : ℕ)
  deriving DecidableEq, Repr

/-- Embeds `route_sql` (`final-auto2.py` lines 258–313).  `d` is the
driver for whichever target the routing picked (manager for writes), and
`rstep` the per-worker replication oracle. -/
def route_sql (d : TargetDriver) (rstep : Host → Option String)
    (query : String) (workers : List Host) : Resp :=
  if query = "" then .err "Missing 'query'" 400
  else
    let lowered := pyLower query
    if pyContainsSub lowered "drop table" ∨ pyContainsSub lowered "truncate" ∨
        pyContainsSub lowered "shutdown" then
      .err "Forbidden SQL command at proxy" 403
    else
      let is_write := is_write_query query
      match d.connect with
      | some e => .err e 500
      | none =>
        match d.exec with
        | some e => .err e 500
        | none =>
          if pyStartsWith (pyLower (pyStrip query)) "select" then
            .rows d.fetched
          else
            match d.commit with
            | some e => .err e 500
            | none =>
              .okRepl (if is_write then
                some (replicate_write_to_workers rstep workers)
                else none)

end FinalAuto2

namespace ProxyConfig

/-! ## `proxy/config.py` — startup configuration

The environment is an oracle `env : String → Option String` (`os.getenv`).
`_must_get` raises `RuntimeError` for an unset variable and equally for an
empty string, since Python's `if not value` treats both as falsy; the
embedding returns `Except` with the `RuntimeError` message. -/

/-- Embeds `_must_get` (`proxy/config.py` lines 4–8). -/
def mustGet (env : String → Option String) (name : String) : Except String String :=
  match env name with
  | none => .error ("Missing required env var: " ++ name)
  | some value =>
      if value = "" then .error ("Missing required env var: " ++ name)
      else .ok value

/-- Python `s.split(",")` (always at least one field). -/
def pySplitComma (s : String) : List String :=
  s.splitOn ","

/-- Embeds the `WORKER_HOSTS` line of `proxy/config.py` (line 13):
`_must_get("WORKER_HOSTS").split(",")`.  An `.error` means module import
— and hence process startup — fails with `RuntimeError`. -/
def workerHostsConfig (env : String → Option String) : Except String (List String) :=
  (mustGet env "WORKER_HOSTS").map pySplitComma

end ProxyConfig

namespace Gatekeeper

/-! ## `gatekeeper/sql_validation.py` — `validate_sql` -/

open Proxy (pyStrip pyLower pyStartsWith pyContainsSub)

/-- Keyword denylist `DANGEROUS_KEYWORDS` (`gatekeeper/sql_validation.py`
lines 4–11), in source order: the loop reports the first one found. -/
def DANGEROUS_KEYWORDS : List String :=
  ["drop ", "truncate ", "alter ", "shutdown", "grant ", "revoke "]

/-- Embeds `validate_sql` (`gatekeeper/sql_validation.py` lines 14–40):
returns `(is_valid, reason_if_not_valid)`. -/
def validate_sql (query : String) : Bool × String :=
  let q := pyStrip query
  let q_lower := pyLower q
  if q = "" then (false, "Empty query")
  else
    match DANGEROUS_KEYWORDS.find? (fun kw => pyContainsSub q_lower kw) with
    | some kw => (false, "Query contains forbidden keyword: " ++ pyStrip kw)
    | none =>
      if (pyStartsWith q_lower "delete" ∨ pyStartsWith q_lower "update") ∧
          ¬ pyContainsSub q_lower " where " then
        (false, "UPDATE/DELETE without WHERE is not allowed")
      else if q.length > 5000 then (false, "Query too long")
      else (true, "")

end Gatekeeper

/-! # Theorems -/

namespace Proxy

/-! ## String lemmas: stripping does not change the first word -/

/-- Dropping a prefix by predicate leaves either nothing or a list whose
head fails the predicate. -/
lemma dropWhile_nil_or_head_false (p : Char → Bool) (l : List Char) :
    l.dropWhile p = [] ∨
      ∃ c t, l.dropWhile p = c :: t ∧ p c = false := by
  induction l with
  | nil => left; rfl
  | cons c t ih =>
    by_cases h : p c
    · simpa [List.dropWhile_cons, h] using ih
    · right
      exact ⟨c, t, by simp [List.dropWhile_cons, h], by simp [h]⟩

/-- Right-stripping removes a purely-whitespace suffix. -/
lemma pyRstrip_append (l : List Char) :
    ∃ t, l = pyRstrip l ++ t ∧ ∀ c ∈ t, pySpace c = true := by
  refine ⟨(l.reverse.takeWhile pySpace).reverse, ?_, ?_⟩
  · conv_lhs => rw [← List.reverse_reverse l,
      ← List.takeWhile_append_dropWhile pySpace l.reverse]
    rw [List.reverse_append]
    rfl
  · intro c hc
    rw [List.mem_reverse] at hc
    exact List.mem_takeWhile_imp hc

/-- Appending a purely-whitespace suffix does not change the first word. -/
lemma takeWhile_append_spaces (l t : List Char)
    (ht : ∀ c ∈ t, pySpace c = true) :
    (l ++ t).takeWhile (fun c => !pySpace c) = l.takeWhile (fun c => !pySpace c) := by
  rw [List.takeWhile_append]
  split
  · rename_i hlen
    have hl : l.takeWhile (fun c => !pySpace c) = l :=
      List.IsPrefix.eq_of_length (List.takeWhile_prefix _) hlen
    have htw : t.takeWhile (fun c => !pySpace c) = [] := by
      cases t with
      | nil => rfl
      | cons c t' =>
        have : pySpace c = true := ht c (List.mem_cons_self c t')
        simp [List.takeWhile_cons, this]
    rw [htw, hl, List.append_nil]
  · rfl

/-- Left-stripping leaves no leading whitespace, so a further `dropWhile`
is the identity. -/
lemma dropWhile_pyRstrip (m : List Char)
    (hm : m = [] ∨ ∃ c t, m = c :: t ∧ pySpace c = false) :
    (pyRstrip m).dropWhile pySpace = pyRstrip m := by
  rcases hm with hm | ⟨c, t, hm, hc⟩
  · subst hm
    rfl
  · obtain ⟨ts, hts, _⟩ := pyRstrip_append m
    cases hr : pyRstrip m with
    | nil => rfl
    | cons c' t' =>
      have hcc : c' = c := by
        rw [hm] at hr
        rw [hm, hr, List.cons_append] at hts
        injection hts with h1 _
        exact h1.symm
      rw [List.dropWhile_cons, hcc, hc]
      simp

/-- Python's `strip()` before `split(None, 1)[0]` is redundant: the first
whitespace-delimited word of the stripped query is the first
whitespace-delimited word of the query. -/
lemma pySplitFirst_pyStripL (l : List Char) :
    pySplitFirst (pyStripL l) = pySplitFirst l := by
  unfold pySplitFirst pyStripL pyLstrip
  set m := l.dropWhile pySpace with hm
  have hshape := dropWhile_nil_or_head_false pySpace l
  rw [dropWhile_pyRstrip m (by simpa [← hm] using hshape)]
  obtain ⟨ts, hts, hsp⟩ := pyRstrip_append m
  conv_rhs => rw [hts]
  exact (takeWhile_append_spaces _ _ hsp).symm

/-- The classifier in terms of the spec-side first word. -/
lemma classify_query_eq_spec (q : String) :
    classify_query q =
      (if specFirstWordLower q = "select" ∨ specFirstWordLower q = "show" ∨
          specFirstWordLower q = "describe" ∨ specFirstWordLower q = "explain"
        then "read" else "write") := by
  unfold classify_query specFirstWordLower
  by_cases h : pyStripL q.data = []
  · have : pySplitFirst q.data = [] := by
      rw [← pySplitFirst_pyStripL, h]
      rfl
    simp [h, this]
  · rw [if_neg h, pySplitFirst_pyStripL]

/-- Claim C3: a query whose first whitespace-delimited word, lower-cased,
is `select`, `show`, `describe` or `explain` (after any leading
whitespace) classifies as `read`; every other query, including the empty
and whitespace-only string, classifies as `write`; the classifier is a
total function into `{read, write}`. -/
theorem classify_query_correct :
    (∀ q : String,
      classify_query q = "read" ↔
        (specFirstWordLower q = "select" ∨ specFirstWordLower q = "show" ∨
         specFirstWordLower q = "describe" ∨ specFirstWordLower q = "explain")) ∧
    (∀ q : String, classify_query q = "read" ∨ classify_query q = "write") ∧
    classify_query "" = "write" ∧ classify_query "   " = "write" := by
  refine ⟨fun q => ?_, fun q => ?_, by decide, by decide⟩
  · rw [classify_query_eq_spec]
    split
    · rename_i h
      exact ⟨fun _ => h, fun _ => rfl⟩
    · rename_i h
      exact ⟨fun hrw => absurd hrw (by decide), fun hh => absurd hh h⟩
  · rw [classify_query_eq_spec]
    split
    · exact Or.inl rfl
    · exact Or.inr rfl

/-! ## The latency-based strategy: `min` with first-encounter tie-breaking -/

/-- The running best of the `min` scan is one of the scanned entries. -/
lemma minPair_mem (p : Host × ℚ) (t : LatencyMap) : minPair p t ∈ p :: t := by
  induction t generalizing p with
  | nil => simp [minPair]
  | cons q t' ih =>
    rw [minPair]
    split
    · have := ih q
      simp only [List.mem_cons] at this ⊢
      tauto
    · have := ih p
      simp only [List.mem_cons] at this ⊢
      tauto

/-- The running best of the `min` scan has the least latency among the
scanned entries. -/
lemma minPair_le (p : Host × ℚ) (t : LatencyMap) :
    ∀ x ∈ p :: t, (minPair p t).2 ≤ x.2 := by
  induction t generalizing p with
  | nil =>
    intro x hx
    simp only [List.mem_singleton] at hx
    simp [minPair, hx]
  | cons q t' ih =>
    intro x hx
    rw [minPair]
    simp only [List.mem_cons] at hx
    split
    · rename_i hlt
      rcases hx with hx | hx | hx
      · exact le_of_lt (lt_of_le_of_lt (ih q q (List.mem_cons_self q t')) (hx ▸ hlt))
      · exact ih q x (List.mem_cons_self q t' |> fun _ => by simp [hx])
      · exact ih q x (by simp [hx])
    · rename_i hge
      push_neg at hge
      rcases hx with hx | hx | hx
      · exact ih p x (by simp [hx])
      · exact le_trans (ih p p (List.mem_cons_self p t')) (hx ▸ hge)
      · exact ih p x (by simp [hx])

/-- Searching a list only consults the predicate on its members. -/
lemma find_congr_mem {α : Type} (P Q : α → Bool) :
    ∀ l : List α, (∀ x ∈ l, P x = Q x) → l.find? P = l.find? Q := by
  intro l
  induction l with
  | nil => intro _; rfl
  | cons a t ih =>
    intro h
    have ha := h a (List.mem_cons_self a t)
    by_cases hp : P a = true
    · rw [List.find?_cons_of_pos _ hp, List.find?_cons_of_pos _ (ha ▸ hp)]
    · rw [List.find?_cons_of_neg _ hp, List.find?_cons_of_neg _ (by rw [← ha]; exact hp),
        ih (fun x hx => h x (List.mem_cons_of_mem a hx))]

/-- Shorthand for the minimality test of `specFirstMin` on a given map. -/
def leastIn (l : LatencyMap) (x : Host × ℚ) : Bool :=
  l.all (fun y => decide (x.2 ≤ y.2))

lemma specFirstMin_def (l : LatencyMap) :
    specFirstMin l = (l.find? (leastIn l)).map Prod.fst := rfl

lemma leastIn_true_iff (l : LatencyMap) (x : Host × ℚ) :
    leastIn l x = true ↔ ∀ y ∈ l, x.2 ≤ y.2 := by
  simp [leastIn, List.all_eq_true]

lemma leastIn_cons (a : Host × ℚ) (l : LatencyMap) (x : Host × ℚ) :
    leastIn (a :: l) x = (decide (x.2 ≤ a.2) && leastIn l x) := by
  simp [leastIn, List.all_cons]

/-- Python's `min(latencies, key=latencies.get)` is the first entry of the
dict whose value is less than or equal to every recorded value. -/
lemma specFirstMin_cons :
    ∀ (t : LatencyMap) (p : Host × ℚ), specFirstMin (p :: t) = some (minByVal p t) := by
  intro t
  induction t with
  | nil =>
    intro p
    simp [specFirstMin, minByVal, minPair, List.find?, leastIn]
  | cons q t' ih =>
    intro p
    have ihq := ih q
    have ihp := ih p
    rw [specFirstMin_def, minByVal] at ihq ihp
    rw [specFirstMin_def, minByVal, minPair]
    split
    · rename_i hlt
      -- the head `p` loses the scan: it fails the minimality test at `q`
      have hp : leastIn (p :: q :: t') p = false := by
        rw [Bool.eq_false_iff]
        intro hall
        exact absurd ((leastIn_true_iff _ _).mp hall q (by simp)) (not_le.mpr hlt)
      rw [List.find?_cons_of_neg _ (by simp [hp])]
      rw [find_congr_mem (leastIn (p :: q :: t')) (leastIn (q :: t')) _ ?_]
      · exact ihq
      · intro x hx
        rw [leastIn_cons]
        cases h : leastIn (q :: t') x with
        | false => simp
        | true =>
          have hxq : x.2 ≤ q.2 :=
            (leastIn_true_iff _ _).mp h q (List.mem_cons_self _ _)
          simp [decide_eq_true (le_of_lt (lt_of_le_of_lt hxq hlt))]
    · rename_i hge
      have hpq : p.2 ≤ q.2 := not_lt.mp hge
      by_cases hp : leastIn (p :: t') p = true
      · -- `p` is already minimal: both scans stop at `p`
        have hpL : leastIn (p :: q :: t') p = true := by
          rw [leastIn_true_iff]
          intro y hy
          rcases List.mem_cons.mp hy with hy | hy
          · exact hy ▸ le_refl _
          · rcases List.mem_cons.mp hy with hy | hy
            · exact hy ▸ hpq
            · exact (leastIn_true_iff _ _).mp hp y (by simp [hy])
        rw [List.find?_cons_of_pos _ hpL]
        rw [List.find?_cons_of_pos _ hp] at ihp
        exact ihp
      · -- `p` is not minimal: something in `t'` is strictly below it,
        -- so `q` cannot be minimal either and both scans move into `t'`
        have hp' : leastIn (p :: t') p = false := Bool.eq_false_iff.mpr hp
        have hpL : leastIn (p :: q :: t') p = false := by
          rw [Bool.eq_false_iff]
          intro hall
          apply hp
          rw [leastIn_true_iff]
          intro y hy
          exact (leastIn_true_iff _ _).mp hall y
            (by rcases List.mem_cons.mp hy with hy | hy <;> simp [hy])
        have hqL : leastIn (p :: q :: t') q = false := by
          rw [Bool.eq_false_iff]
          intro hall
          apply hp
          rw [leastIn_true_iff]
          intro y hy
          rcases List.mem_cons.mp hy with hy | hy
          · exact hy ▸ le_refl _
          · exact le_trans hpq
              ((leastIn_true_iff _ _).mp hall y (by simp [hy]))
        rw [List.find?_cons_of_neg _ (by simp [hpL]),
          List.find?_cons_of_neg _ (by simp [hqL])]
        rw [List.find?_cons_of_neg _ (by simp [hp'])] at ihp
        rw [find_congr_mem (leastIn (p :: q :: t')) (leastIn (p :: t')) _ ?_]
        · exact ihp
        · intro x hx
          rw [leastIn_cons, leastIn_cons, leastIn_cons]
          cases hd : decide (x.2 ≤ p.2) with
          | false => simp
          | true =>
            have : decide (x.2 ≤ q.2) = true :=
              decide_eq_true (le_trans (of_decide_eq_true hd) hpq)
            simp [this]

/-- The probed hosts are the workers, in worker-list order, minus the
failed probes. -/
lemma probeWorkers_keys_sublist (ping : Host → Option ℚ) (ws : List Host) :
    ((probeWorkers ping ws).map Prod.fst).Sublist ws := by
  induction ws with
  | nil => simp [probeWorkers]
  | cons w ws' ih =>
    unfold probeWorkers at ih ⊢
    cases hping : ping w with
    | none =>
      simpa [List.filterMap_cons, hping] using ih.cons w
    | some lat =>
      simpa [List.filterMap_cons, hping] using ih.cons₂ w

/-- When every probe fails, nothing is recorded. -/
lemma probeWorkers_all_none (ping : Host → Option ℚ) (ws : List Host)
    (h : ∀ w ∈ ws, ping w = none) : probeWorkers ping ws = [] := by
  rw [probeWorkers, List.filterMap_eq_nil_iff]
  intro w hw
  rw [h w hw]
  rfl

lemma latencyChooseTarget_write (ping : Host → Option ℚ) (m : Host)
    (ws : List Host) (st : LatencyMap) :
    latencyChooseTarget ping "write" m ws st = (m, st, 0) := by
  simp [latencyChooseTarget]

lemma latencyChooseTarget_no_workers (ping : Host → Option ℚ) (qt : String)
    (m : Host) (st : LatencyMap) :
    latencyChooseTarget ping qt m [] st = (m, st, 0) := by
  simp [latencyChooseTarget]

lemma latencyChooseTarget_all_fail (ping : Host → Option ℚ) (m : Host)
    (ws : List Host) (h : ∀ w ∈ ws, ping w = none) :
    (latencyChooseTarget ping "read" m ws []).1 = m := by
  cases ws with
  | nil => rfl
  | cons w ws' =>
    have hprobe := probeWorkers_all_none ping (w :: ws') h
    simp [latencyChooseTarget, hprobe]

lemma latencyChooseTarget_cached (ping : Host → Option ℚ) (m : Host)
    (ws : List Host) (st : LatencyMap) (hws : ws ≠ []) (hst : st ≠ []) :
    some (latencyChooseTarget ping "read" m ws st).1 = specFirstMin st ∧
      (latencyChooseTarget ping "read" m ws st).2.1 = st := by
  cases st with
  | nil => exact absurd rfl hst
  | cons p t =>
    rw [specFirstMin_cons]
    simp [latencyChooseTarget, hws]

lemma latencyChooseTarget_cold (ping : Host → Option ℚ) (m : Host)
    (ws : List Host) (hws : ws ≠ []) (hpr : probeWorkers ping ws ≠ []) :
    some (latencyChooseTarget ping "read" m ws []).1 =
      specFirstMin (probeWorkers ping ws) := by
  cases hm : probeWorkers ping ws with
  | nil => exact absurd hm hpr
  | cons p t =>
    rw [specFirstMin_cons]
    simp [latencyChooseTarget, hws, hm]

/-- Claim C1: under the latency-based (custom) strategy, a write always
goes to the manager; a read with no workers goes to the manager; a read
whose probes all fail goes to the manager; a read with a non-empty
recorded latency map selects the first recorded host of strictly lowest
latency (ties broken by first-encountered order), the recorded map being
built in worker-list order from the successfully probed workers. -/
theorem latency_based_choose_target_correct :
    (∀ (ping : Host → Option ℚ) (m : Host) (ws : List Host) (st : LatencyMap),
      latencyChooseTarget ping "write" m ws st = (m, st, 0)) ∧
    (∀ (ping : Host → Option ℚ) (qt : String) (m : Host) (st : LatencyMap),
      latencyChooseTarget ping qt m [] st = (m, st, 0)) ∧
    (∀ (ping : Host → Option ℚ) (m : Host) (ws : List Host),
      (∀ w ∈ ws, ping w = none) →
      (latencyChooseTarget ping "read" m ws []).1 = m) ∧
    (∀ (ping : Host → Option ℚ) (m : Host) (ws : List Host) (st : LatencyMap),
      ws ≠ [] → st ≠ [] →
      some (latencyChooseTarget ping "read" m ws st).1 = specFirstMin st ∧
      (latencyChooseTarget ping "read" m ws st).2.1 = st) ∧
    (∀ (ping : Host → Option ℚ) (m : Host) (ws : List Host),
      ((probeWorkers ping ws).map Prod.fst).Sublist ws ∧
      (ws ≠ [] → probeWorkers ping ws ≠ [] →
        some (latencyChooseTarget ping "read" m ws []).1 =
          specFirstMin (probeWorkers ping ws))) :=
  ⟨latencyChooseTarget_write, latencyChooseTarget_no_workers,
    latencyChooseTarget_all_fail, latencyChooseTarget_cached,
    fun ping m ws =>
      ⟨probeWorkers_keys_sublist ping ws, latencyChooseTarget_cold ping m ws⟩⟩

/-- The probe oracle of spec §8 item 4: `{w1: 12.0, w2: 5.0}`. -/
def pingEx : Host → Option ℚ :=
  fun w => if w = "w1" then some 12 else if w = "w2" then some 5 else none

/-- Concrete instance of claim C1: with probe results
`{w1: 12.0, w2: 5.0}` a read on workers `[w1, w2]` is routed to `w2`. -/
theorem latency_based_choose_target_correct_witness :
    (["w1", "w2"] : List Host) ≠ [] ∧
    probeWorkers pingEx ["w1", "w2"] ≠ [] ∧
    (latencyChooseTarget pingEx "read" "m" ["w1", "w2"] []).1 = "w2" := by
  refine ⟨by decide, by decide, ?_⟩
  have h := (latency_based_choose_target_correct.2.2.2.2 pingEx "m"
    ["w1", "w2"]).2 (by decide) (by decide)
  have h2 : specFirstMin (probeWorkers pingEx ["w1", "w2"]) = some "w2" := by decide
  rw [h2] at h
  exact Option.some.inj h

/-! ## Latency cache reuse across consecutive reads -/

/-- A probe oracle with every worker unreachable. -/
def pingFail : Host → Option ℚ := fun _ => none

/-- Claim C4 counterexample: when every probe of the first read fails, the
cached map stays empty and the second consecutive read probes again (one
whole pass, not zero probes), so at most one probing pass over two
consecutive reads is violated. -/
theorem latency_cache_reuse_cex :
    (latencyChooseTarget pingFail "read" "m" ["w1"] []).2.2 = 1 ∧
    (latencyChooseTarget pingFail "read" "m" ["w1"]
        (latencyChooseTarget pingFail "read" "m" ["w1"] []).2.1).2.2 ≠ 0 := by
  decide

/-- A read arriving with a non-empty cached latency map issues no probes
and leaves the map unchanged. -/
lemma latencyChooseTarget_nonempty_state (ping : Host → Option ℚ) (m : Host)
    (ws : List Host) (st : LatencyMap) (hst : st ≠ []) :
    (latencyChooseTarget ping "read" m ws st).2.2 = 0 ∧
      (latencyChooseTarget ping "read" m ws st).2.1 = st := by
  cases ws with
  | nil => simp [latencyChooseTarget]
  | cons w ws' =>
    cases st with
    | nil => exact absurd rfl hst
    | cons p t => simp [latencyChooseTarget]

/-- Claim C4 (amended): two consecutive reads trigger at most one probing
pass provided the first read left a non-empty latency map (that is, at
least one worker probe succeeded, or a cache already existed); the second
read then issues no probes and reuses the cached map unchanged.  When no
probe succeeds the cache stays empty and every subsequent read re-probes. -/
theorem latency_cache_reuse_amended (ping : Host → Option ℚ) (m : Host)
    (ws : List Host) (st₀ : LatencyMap)
    (h : (latencyChooseTarget ping "read" m ws st₀).2.1 ≠ []) :
    (latencyChooseTarget ping "read" m ws
        (latencyChooseTarget ping "read" m ws st₀).2.1).2.2 = 0 ∧
    (latencyChooseTarget ping "read" m ws
        (latencyChooseTarget ping "read" m ws st₀).2.1).2.1 =
      (latencyChooseTarget ping "read" m ws st₀).2.1 :=
  latencyChooseTarget_nonempty_state ping m ws _ h

/-- A probe oracle with every worker reachable at 7 ms. -/
def pingOk : Host → Option ℚ := fun _ => some 7

/-- Concrete instance of amended claim C4: after a successful first probe
pass on `[w1]`, the second read issues zero probes and keeps the cache. -/
theorem latency_cache_reuse_amended_witness :
    (latencyChooseTarget pingOk "read" "m" ["w1"] []).2.1 ≠ [] ∧
    (latencyChooseTarget pingOk "read" "m" ["w1"]
        (latencyChooseTarget pingOk "read" "m" ["w1"] []).2.1).2.2 = 0 ∧
    (latencyChooseTarget pingOk "read" "m" ["w1"]
        (latencyChooseTarget pingOk "read" "m" ["w1"] []).2.1).2.1 =
      (latencyChooseTarget pingOk "read" "m" ["w1"] []).2.1 :=
  ⟨by decide, latency_cache_reuse_amended pingOk "m" ["w1"] [] (by decide)⟩

/-! ## The random strategy -/

/-- Claim C2 counterexample: in `proxy/app.py`, `choose_host` under the
`random` strategy draws from `[manager] + workers` for writes as well:
with one worker and draw index 1, a write query is routed to the worker,
not the manager. -/
theorem random_strategy_cex :
    choose_host 1 (some "random") (some "INSERT INTO t VALUES (1)") "m" ["w1"] = "w1" ∧
    ("w1" : Host) ≠ "m" := by
  decide

lemma randomChooseTarget_write (k : ℕ) (m : Host) (ws : List Host) :
    randomChooseTarget k "write" m ws = m := by
  simp [randomChooseTarget]

lemma randomChooseTarget_read (k : ℕ) (m : Host) (ws : List Host) (h : ws ≠ []) :
    randomChooseTarget k "read" m ws =
      ws.get ⟨k % ws.length, Nat.mod_lt k (List.length_pos.mpr h)⟩ := by
  rw [randomChooseTarget, if_neg (by simp [h])]
  exact List.getD_eq_getElem ws m (Nat.mod_lt k (List.length_pos.mpr h))

lemma choose_host_random (k : ℕ) (q : Option String) (m : Host)
    (ws : List Host) (h : ws ≠ []) :
    choose_host k (some "random") q m ws =
      (m :: ws).get ⟨k % (m :: ws).length, Nat.mod_lt k (Nat.succ_pos _)⟩ := by
  have hlow : pyLower "random" = "random" := by decide
  rw [choose_host]
  simp only [Option.getD_some, hlow, h, if_false, if_true]
  rw [List.get_eq_getElem]
  exact List.getD_eq_getElem (m :: ws) m (Nat.mod_lt k (Nat.succ_pos _))

/-- Claim C2 (amended): the strategy-object implementation
`RandomChoiceStrategy.choose_target` sends every write to the manager and
every read to the uniformly drawn worker `ws[k % len(ws)]` (manager only
when the worker list is empty, never otherwise); but the in-app selector
`choose_host` of `proxy/app.py` draws uniformly from `[manager] + workers`
under the `random` strategy for reads and writes alike, so there the
manager is included and writes may land on workers. -/
theorem random_strategy_amended :
    (∀ (k : ℕ) (m : Host) (ws : List Host), randomChooseTarget k "write" m ws = m) ∧
    (∀ (k : ℕ) (m : Host), randomChooseTarget k "read" m [] = m) ∧
    (∀ (k : ℕ) (m : Host) (ws : List Host) (h : ws ≠ []),
      randomChooseTarget k "read" m ws =
        ws.get ⟨k % ws.length, Nat.mod_lt k (List.length_pos.mpr h)⟩ ∧
      randomChooseTarget k "read" m ws ∈ ws) ∧
    (∀ (k : ℕ) (q : Option String) (m : Host) (ws : List Host) (h : ws ≠ []),
      choose_host k (some "random") q m ws =
        (m :: ws).get ⟨k % (m :: ws).length, Nat.mod_lt k (Nat.succ_pos _)⟩) := by
  refine ⟨randomChooseTarget_write, fun k m => by simp [randomChooseTarget],
    fun k m ws h => ⟨randomChooseTarget_read k m ws h, ?_⟩, choose_host_random⟩
  rw [randomChooseTarget_read k m ws h]
  exact List.get_mem ws _ _

/-- Concrete instance of amended claim C2: a read with draw index 5 over
three workers lands on `w3` (`5 % 3 = 2`), and `choose_host`'s random
draw with index 2 over manager-plus-one-worker lands on the manager even
for a read. -/
theorem random_strategy_amended_witness :
    randomChooseTarget 5 "read" "m" ["w1", "w2", "w3"] = "w3" ∧
    choose_host 2 (some "random") (some "select 1") "m" ["w1"] = "m" := by
  constructor
  · exact ((random_strategy_amended.2.2.1 5 "m" ["w1", "w2", "w3"]
      (by decide)).1).trans (by decide)
  · exact (random_strategy_amended.2.2.2 2 (some "select 1") "m" ["w1"]
      (by decide)).trans (by decide)

/-! ## The executor's read/write split -/

/-- Claim C5 counterexample: `show tables` is classified as a read (both
by `classify_query` and by `db.execute_query`'s own test), yet the `/sql`
handler of `proxy/app.py` takes the write branch for it: it commits and
returns an affected-row count instead of fetched row mappings. -/
theorem executor_read_split_cex :
    classify_query "show tables" = "read" ∧
    dbIsRead "show tables" = true ∧
    handleSqlResult "show tables" ⟨[["t"]], ["Tables_in_db"], 0⟩ =
      (SqlResponse.affected 0, true) := by
  decide

/-- Claim C5 (amended): in the `/sql` handler only queries whose stripped
text starts case-insensitively with `select` take the read path — those
are returned in full as a sequence of column-name→value mappings, one per
fetched row, without committing; every other query (including
`show`/`describe`/`explain` reads) is committed and reported as an
affected-row count.  `db.execute_query` recognises all four read keywords
and does not commit on reads, but returns the raw rows, not mappings. -/
theorem executor_read_write_amended :
    (∀ (query : String) (cur : CursorData),
      pyStartsWith (pyLower (pyStrip query)) "select" = true →
      handleSqlResult query cur =
        (SqlResponse.rows (cur.rows.map (fun row => cur.columns.zip row)), false) ∧
      (cur.rows.map (fun row => cur.columns.zip row)).length = cur.rows.length) ∧
    (∀ (query : String) (cur : CursorData),
      pyStartsWith (pyLower (pyStrip query)) "select" = false →
      handleSqlResult query cur = (SqlResponse.affected cur.rowcount, true)) ∧
    (∀ (query : String) (host : Host) (cur : CursorData),
      dbIsRead query = true →
      execute_query_result query host cur =
        (Sum.inl cur.rows, "Executed READ on " ++ host, false)) ∧
    (∀ (query : String) (host : Host) (cur : CursorData),
      dbIsRead query = false →
      execute_query_result query host cur =
        (Sum.inr cur.rowcount, "Executed WRITE on " ++ host, true)) := by
  refine ⟨fun query cur h => ⟨?_, by simp⟩, fun query cur h => ?_,
    fun query host cur h => ?_, fun query host cur h => ?_⟩
  · simp [handleSqlResult, h]
  · simp [handleSqlResult, h]
  · simp [execute_query_result, h]
  · simp [execute_query_result, h]

/-- Concrete instance of amended claim C5: a `SELECT` is returned as
column-name→value mappings without commit; an `INSERT` commits and
returns its affected-row count. -/
theorem executor_read_write_amended_witness :
    handleSqlResult "SELECT 1" ⟨[["1"]], ["1"], -1⟩ =
      (SqlResponse.rows [[("1", "1")]], false) ∧
    handleSqlResult "INSERT INTO t VALUES (1)" ⟨[], [], 2⟩ =
      (SqlResponse.affected 2, true) := by
  constructor
  · exact ((executor_read_write_amended.1 "SELECT 1"
      ⟨[["1"]], ["1"], -1⟩ (by decide)).1).trans (by decide)
  · exact (executor_read_write_amended.2.1 "INSERT INTO t VALUES (1)"
      ⟨[], [], 2⟩ (by decide)).trans (by decide)

/-! ## Resource release in `execute_query` -/

/-- Claim C6: whatever the driver does — success, SQL error caught by the
`except` arm, or an unexpected exception propagated to the caller — every
connection and every cursor opened by `execute_query` is closed by its
`finally` block before the call returns. -/
theorem executor_releases_resources :
    ∀ (d : DbDriver) (is_read : Bool),
      ((execute_query_trace d is_read).1.count ResEvent.openConn =
        (execute_query_trace d is_read).1.count ResEvent.closeConn) ∧
      ((execute_query_trace d is_read).1.count ResEvent.openCursor =
        (execute_query_trace d is_read).1.count ResEvent.closeCursor) := by
  intro d r
  rcases d with ⟨c, mc, e, f⟩
  cases c <;> cases mc <;> cases e <;> cases f <;> cases r <;> decide

/-! ## Unknown strategy names fall back to the default -/

/-- Claim C7: when the configured default names a registered strategy,
`Router.get_strategy` resolves every unknown strategy name to that default
without error, and `Router.choose_target` then picks exactly the host the
default strategy would pick for the same query and state. -/
theorem unknown_strategy_fallback :
    ∀ (default_strategy name : String) (d : Strategy),
      strategiesLookup default_strategy = some d →
      strategiesLookup name = none →
      get_strategy default_strategy name = some d ∧
      ∀ (ping : Host → Option ℚ) (k : ℕ) (query : String) (m : Host)
        (ws : List Host) (st : LatencyMap),
        routerChooseTarget ping k default_strategy query name m ws st =
          routerChooseTarget ping k default_strategy query default_strategy m ws st := by
  intro dft name d hd hn
  have hg : get_strategy dft name = some d := by
    rw [get_strategy, hd, hn]
    rfl
  have hg2 : get_strategy dft dft = some d := by
    rw [get_strategy, hd]
    rfl
  refine ⟨hg, fun ping k query m ws st => ?_⟩
  rw [routerChooseTarget, routerChooseTarget, hg, hg2]

/-- Concrete instance of claim C7: the unknown name `loadbalance` resolves
to the default `direct` strategy and routes exactly as `direct` does. -/
theorem unknown_strategy_fallback_witness :
    get_strategy "direct" "loadbalance" = some Strategy.direct ∧
    routerChooseTarget pingOk 0 "direct" "select 1" "loadbalance" "m" ["w1"] [] =
      routerChooseTarget pingOk 0 "direct" "select 1" "direct" "m" ["w1"] [] := by
  have h := unknown_strategy_fallback "direct" "loadbalance" Strategy.direct
    (by decide) (by decide)
  exact ⟨h.1, h.2 pingOk 0 "select 1" "m" ["w1"] []⟩

/-- Two prefixes of the same string begin with the same character. -/
lemma startsWith_head_eq {c1 c2 : Char} (s p1 p2 : String)
    (h1 : pyStartsWith s p1 = true) (h2 : pyStartsWith s p2 = true)
    (hn1 : p1.data.head? = some c1) (hn2 : p2.data.head? = some c2) :
    c1 = c2 := by
  rw [pyStartsWith, List.isPrefixOf_iff_prefix] at h1 h2
  obtain ⟨t1, ht1⟩ := h1
  obtain ⟨t2, ht2⟩ := h2
  have e1 : s.data.head? = some c1 := by
    cases hp1 : p1.data with
    | nil => simp [hp1] at hn1
    | cons a r =>
      rw [hp1] at hn1
      rw [← ht1, hp1, List.cons_append, List.head?_cons]
      simpa using hn1
  have e2 : s.data.head? = some c2 := by
    cases hp2 : p2.data with
    | nil => simp [hp2] at hn2
    | cons a r =>
      rw [hp2] at hn2
      rw [← ht2, hp2, List.cons_append, List.head?_cons]
      simpa using hn2
  rw [e1] at e2
  exact Option.some.inj e2

end Proxy

namespace FinalAuto2

/-! ## Write fan-out replication never fails the response -/

open Proxy (Host pyStrip pyLower pyStartsWith pyStartsWithAny pyContainsSub
  startsWith_head_eq)

/-- A query recognised as a write by `is_write_query` cannot start with
`select`: its first character is one of `i,u,d,r,c,a`, never `s`. -/
lemma is_write_query_not_select (q : String) (h : is_write_query q = true) :
    pyStartsWith (pyLower (pyStrip q)) "select" = false := by
  rw [Bool.eq_false_iff]
  intro hsel
  rw [is_write_query, pyStartsWithAny, List.any_eq_true] at h
  obtain ⟨p, hp, hpre⟩ := h
  fin_cases hp <;>
    exact absurd (startsWith_head_eq _ _ _ hpre hsel rfl rfl) (by decide)

/-- The fan-out reports exactly the workers, in order. -/
lemma replicate_hosts (rstep : Host → Option String) (workers : List Host) :
    (replicate_write_to_workers rstep workers).map Prod.fst = workers := by
  induction workers with
  | nil => rfl
  | cons w t ih =>
    rw [replicate_write_to_workers, List.map_cons, List.map_cons]
    rw [replicate_write_to_workers] at ih
    cases rstep w <;> simpa using ih

/-- Claim C8: in the fan-out variant, once the manager execution of a
write succeeds, the endpoint answers success carrying one `{host, status}`
entry per worker (in worker order, `OK` or an `ERROR:` message), for every
possible pattern of per-worker replication failures — failed replications
never turn the response into a failure. -/
theorem write_fanout_replication_ok :
    ∀ (rstep : Host → Option String) (query : String) (workers : List Host)
      (fetched : List (List Proxy.Cell)),
      query ≠ "" →
      pyContainsSub (pyLower query) "drop table" = false →
      pyContainsSub (pyLower query) "truncate" = false →
      pyContainsSub (pyLower query) "shutdown" = false →
      is_write_query query = true →
      route_sql ⟨none, none, none, fetched⟩ rstep query workers =
        Resp.okRepl (some (replicate_write_to_workers rstep workers)) ∧
      (replicate_write_to_workers rstep workers).map Prod.fst = workers ∧
      ∀ p ∈ replicate_write_to_workers rstep workers,
        p.2 = "OK" ∨ pyStartsWith p.2 "ERROR: " = true := by
  intro rstep query workers fetched hq h1 h2 h3 hw
  refine ⟨?_, replicate_hosts rstep workers, ?_⟩
  · simp [route_sql, hq, h1, h2, h3, hw, is_write_query_not_select query hw]
  · intro p hp
    rw [replicate_write_to_workers, List.mem_map] at hp
    obtain ⟨w, _, hmk⟩ := hp
    cases hrw : rstep w with
    | none =>
      rw [hrw] at hmk
      exact Or.inl (by rw [← hmk])
    | some e =>
      rw [hrw] at hmk
      refine Or.inr ?_
      rw [← hmk]
      rw [pyStartsWith, List.isPrefixOf_iff_prefix]
      exact ⟨e.data, by simp⟩

/-- The replication oracle of the witness: `w2` is down. -/
def replEx : Host → Option String := fun w => if w = "w2" then some "boom" else none

/-- Concrete instance of claim C8: a successful manager write over workers
`[w1, w2]` with `w2` failing still answers success, reporting `OK` for
`w1` and the error for `w2`. -/
theorem write_fanout_replication_ok_witness :
    route_sql ⟨none, none, none, []⟩ replEx "INSERT INTO t VALUES (1)" ["w1", "w2"] =
      Resp.okRepl (some [("w1", "OK"), ("w2", "ERROR: boom")]) := by
  have h := (write_fanout_replication_ok replEx "INSERT INTO t VALUES (1)"
    ["w1", "w2"] [] (by decide) (by decide) (by decide) (by decide) (by decide)).1
  exact h.trans (by decide)

end FinalAuto2

namespace ProxyConfig

open Proxy (Host LatencyMap directChooseTarget randomChooseTarget
  latencyChooseTarget pingOk)

/-- An environment whose `WORKER_HOSTS` is the empty string (all other
variables set). -/
def envEmptyWorkers : String → Option String :=
  fun n => if n = "WORKER_HOSTS" then some "" else some "x"

/-- Claim C9 counterexample: with `WORKER_HOSTS` set to the empty string,
`proxy/config.py` raises `RuntimeError` at import (Python's `if not value`
treats the empty string like an unset variable), so the process does not
start with an empty worker list. -/
theorem empty_worker_hosts_cex :
    workerHostsConfig envEmptyWorkers =
      Except.error "Missing required env var: WORKER_HOSTS" := by
  rfl

/-- Claim C9 (amended): startup rejects an empty `WORKER_HOSTS` with
`RuntimeError: Missing required env var: WORKER_HOSTS`; nevertheless every
strategy degrades to manager-only routing whenever it is handed an empty
worker list. -/
theorem empty_worker_hosts_amended :
    (∀ env : String → Option String, env "WORKER_HOSTS" = some "" →
      workerHostsConfig env = Except.error "Missing required env var: WORKER_HOSTS") ∧
    (∀ (qt : String) (m : Host) (k : ℕ) (ping : Host → Option ℚ) (st : LatencyMap),
      directChooseTarget qt m [] = m ∧
      randomChooseTarget k qt m [] = m ∧
      (latencyChooseTarget ping qt m [] st).1 = m) := by
  constructor
  · intro env h
    rw [workerHostsConfig, mustGet, h]
    rfl
  · intro qt m k ping st
    refine ⟨rfl, by simp [randomChooseTarget], by simp [latencyChooseTarget]⟩

/-- Concrete instance of amended claim C9: the empty-string environment is
rejected, and a read routed with an empty worker list goes to the
manager. -/
theorem empty_worker_hosts_amended_witness :
    workerHostsConfig envEmptyWorkers =
      Except.error "Missing required env var: WORKER_HOSTS" ∧
    randomChooseTarget 3 "read" "m" [] = "m" := by
  refine ⟨empty_worker_hosts_amended.1 envEmptyWorkers (by decide), ?_⟩
  exact (empty_worker_hosts_amended.2 "read" "m" 3 pingOk []).2.1

end ProxyConfig

namespace Gatekeeper

/-! ## The 5000-character limit of `validate_sql`

The length check is the last of the four checks, so an over-long query
that also trips an earlier check is reported with the earlier reason.
The concrete over-long queries are built from `List.replicate`; all facts
about them are proved by rewriting, never by whole-list evaluation. -/

open Proxy (pySpace pyStrip pyStripL pyLstrip pyRstrip pyLower pyStartsWith
  pyContainsSub pyOccursIn)

/-- Dropping whitespace stops at a non-whitespace head. -/
lemma dropWhile_cons_nonspace (c : Char) (l : List Char) (h : pySpace c = false) :
    (c :: l).dropWhile pySpace = c :: l := by
  simp [List.dropWhile_cons, h]

/-- A block of a non-whitespace character survives `dropWhile`. -/
lemma dropWhile_replicate_nonspace (n : ℕ) (a : Char) (h : pySpace a = false) :
    (List.replicate n a).dropWhile pySpace = List.replicate n a := by
  cases n with
  | zero => rfl
  | succ n' =>
    rw [List.replicate_succ a n']
    exact dropWhile_cons_nonspace a _ h

/-- A non-empty block of a non-whitespace character shields a suffix from
`dropWhile`. -/
lemma dropWhile_replicate_append (n : ℕ) (a : Char) (t : List Char)
    (h : pySpace a = false) :
    (List.replicate (n + 1) a ++ t).dropWhile pySpace =
      List.replicate (n + 1) a ++ t := by
  rw [List.replicate_succ a n, List.cons_append]
  exact dropWhile_cons_nonspace a _ h

/-- Stripping a block of a non-whitespace character is the identity. -/
lemma pyStripL_replicate (n : ℕ) (a : Char) (h : pySpace a = false) :
    pyStripL (List.replicate n a) = List.replicate n a := by
  unfold pyStripL pyLstrip pyRstrip
  rw [dropWhile_replicate_nonspace n a h, List.reverse_replicate,
    dropWhile_replicate_nonspace n a h, List.reverse_replicate]

/-- A prefix whose head differs from the replicated character is no prefix
of the block. -/
lemma isPrefixOf_replicate_ne (c : Char) (r : List Char) (n : ℕ) (a : Char)
    (h : (c == a) = false) :
    (c :: r).isPrefixOf (List.replicate n a) = false := by
  cases n with
  | zero => rfl
  | succ n' =>
    rw [List.replicate_succ a n']
    show (c == a && r.isPrefixOf (List.replicate n' a)) = false
    rw [h, Bool.false_and]

/-- A needle whose second character differs from the replicated character
occurs nowhere in the block. -/
lemma pyOccursIn_replicate_ne (c1 c2 : Char) (r : List Char) (a : Char)
    (h : (c2 == a) = false) :
    ∀ n, pyOccursIn (c1 :: c2 :: r) (List.replicate n a) = false := by
  intro n
  induction n with
  | zero => rfl
  | succ n' ih =>
    rw [List.replicate_succ a n', pyOccursIn, ih, Bool.or_false]
    show (c1 == a && (c2 :: r).isPrefixOf (List.replicate n' a)) = false
    rw [isPrefixOf_replicate_ne c2 r n' a h, Bool.and_false]

/-- A needle occurs in any haystack it is a prefix of. -/
lemma pyOccursIn_of_leading (needle hay : List Char) (h : needle <+: hay) :
    pyOccursIn needle hay = true := by
  cases hay with
  | nil =>
    obtain ⟨t, ht⟩ := h
    cases needle with
    | nil => rfl
    | cons c r => simp at ht
  | cons c t' =>
    rw [pyOccursIn, List.isPrefixOf_iff_prefix.mpr h, Bool.true_or]

/-- Claim C10 (amended): every query whose stripped length exceeds 5000
characters is rejected, but the reason is `Query too long` only when no
earlier check (emptiness, dangerous keyword, UPDATE/DELETE without WHERE)
already rejected it — the length check runs last. -/
theorem validate_sql_long (q : String) (hlen : 5000 < (pyStrip q).length) :
    (validate_sql q).1 = false ∧
    (DANGEROUS_KEYWORDS.find?
        (fun kw => pyContainsSub (pyLower (pyStrip q)) kw) = none →
      ¬((pyStartsWith (pyLower (pyStrip q)) "delete" ∨
          pyStartsWith (pyLower (pyStrip q)) "update") ∧
        ¬ pyContainsSub (pyLower (pyStrip q)) " where ") →
      validate_sql q = (false, "Query too long")) := by
  have hne : pyStrip q ≠ "" := by
    intro h0
    rw [h0] at hlen
    exact absurd hlen (by decide)
  simp only [validate_sql]
  rw [if_neg hne]
  cases hfind : DANGEROUS_KEYWORDS.find?
      (fun kw => pyContainsSub (pyLower (pyStrip q)) kw) with
  | some kw =>
    refine ⟨rfl, fun hnone _ => ?_⟩
    exact Option.noConfusion hnone
  | none =>
    by_cases hud : (pyStartsWith (pyLower (pyStrip q)) "delete" ∨
        pyStartsWith (pyLower (pyStrip q)) "update") ∧
        ¬ pyContainsSub (pyLower (pyStrip q)) " where "
    · rw [if_pos hud]
      exact ⟨rfl, fun _ hna => absurd hud hna⟩
    · rw [if_neg hud, if_pos hlen]
      exact ⟨rfl, fun _ _ => rfl⟩

/-- The first five characters of the over-long dangerous query. -/
def dropHead : List Char := ['d', 'r', 'o', 'p', ' ']

/-- An over-long query that also contains the keyword `drop `. -/
def longDropQuery : String := String.mk (dropHead ++ List.replicate 4996 'a')

/-- An over-long query that trips no other check. -/
def longPlainQuery : String := String.mk (List.replicate 5001 'a')

lemma pyStripL_longDrop :
    pyStripL (dropHead ++ List.replicate 4996 'a') =
      dropHead ++ List.replicate 4996 'a' := by
  have h1 : pyLstrip (dropHead ++ List.replicate 4996 'a') =
      dropHead ++ List.replicate 4996 'a' := by
    rw [dropHead, List.cons_append]
    exact dropWhile_cons_nonspace 'd' _ (by decide)
  have h2 : pyRstrip (dropHead ++ List.replicate 4996 'a') =
      dropHead ++ List.replicate 4996 'a' := by
    unfold pyRstrip
    rw [List.reverse_append, List.reverse_replicate,
      show (4996 : ℕ) = 4995 + 1 from rfl,
      dropWhile_replicate_append 4995 'a' _ (by decide),
      List.reverse_append, List.reverse_replicate, List.reverse_reverse]
  rw [pyStripL, h1, h2]

lemma pyStrip_longDrop : pyStrip longDropQuery = longDropQuery := by
  rw [pyStrip, longDropQuery]
  exact congrArg String.mk pyStripL_longDrop

lemma pyLower_longDrop : pyLower longDropQuery = longDropQuery := by
  rw [pyLower, longDropQuery]
  apply congrArg String.mk
  show (dropHead ++ List.replicate 4996 'a').map Char.toLower = _
  rw [List.map_append, List.map_replicate]
  rfl

lemma length_longDrop : longDropQuery.length = 5001 := by
  show (dropHead ++ List.replicate 4996 'a').length = 5001
  rw [List.length_append, List.length_replicate]
  rfl

/-- Claim C10 counterexample: this 5001-character query is over-long, yet
its reported reason is the dangerous-keyword one, not `Query too long`. -/
theorem validate_sql_long_cex :
    5000 < (pyStrip longDropQuery).length ∧
    validate_sql longDropQuery =
      (false, "Query contains forbidden keyword: drop") ∧
    (validate_sql longDropQuery).2 ≠ "Query too long" := by
  have hlen : 5000 < (pyStrip longDropQuery).length := by
    rw [pyStrip_longDrop, length_longDrop]
    decide
  have hne : pyStrip longDropQuery ≠ "" := by
    intro h0
    rw [h0] at hlen
    exact absurd hlen (by decide)
  have hcont : pyContainsSub (pyLower (pyStrip longDropQuery)) "drop " = true := by
    rw [pyStrip_longDrop, pyLower_longDrop]
    exact pyOccursIn_of_leading _ _ ⟨List.replicate 4996 'a', rfl⟩
  have hval : validate_sql longDropQuery =
      (false, "Query contains forbidden keyword: drop") := by
    simp only [validate_sql]
    rw [if_neg hne]
    rw [show DANGEROUS_KEYWORDS = "drop " :: ["truncate ", "alter ", "shutdown",
      "grant ", "revoke "] from rfl]
    rw [List.find?_cons_of_pos _ hcont]
    decide
  exact ⟨hlen, hval, by rw [hval]; decide⟩

lemma pyStrip_longPlain : pyStrip longPlainQuery = longPlainQuery := by
  rw [pyStrip, longPlainQuery]
  exact congrArg String.mk (pyStripL_replicate 5001 'a' (by decide))

lemma pyLower_longPlain : pyLower longPlainQuery = longPlainQuery := by
  rw [pyLower, longPlainQuery]
  apply congrArg String.mk
  show (List.replicate 5001 'a').map Char.toLower = _
  rw [List.map_replicate]
  rfl

lemma length_longPlain : longPlainQuery.length = 5001 := by
  show (List.replicate 5001 'a').length = 5001
  rw [List.length_replicate]

/-- No dangerous keyword occurs in the all-`a` query: each keyword's
second character is not `a`. -/
lemma longPlain_no_keyword :
    DANGEROUS_KEYWORDS.find?
      (fun kw => pyContainsSub (pyLower (pyStrip longPlainQuery)) kw) = none := by
  rw [List.find?_eq_none]
  intro kw hkw
  rw [pyStrip_longPlain, pyLower_longPlain]
  intro hcont
  fin_cases hkw <;>
    exact absurd hcont (by
      rw [show pyContainsSub longPlainQuery _ =
        pyOccursIn _ (List.replicate 5001 'a') from rfl]
      rw [pyOccursIn_replicate_ne _ _ _ 'a' (by decide) 5001]
      decide)

/-- The all-`a` query starts with neither `delete` nor `update`. -/
lemma longPlain_not_ud :
    ¬((pyStartsWith (pyLower (pyStrip longPlainQuery)) "delete" ∨
        pyStartsWith (pyLower (pyStrip longPlainQuery)) "update") ∧
      ¬ pyContainsSub (pyLower (pyStrip longPlainQuery)) " where ") := by
  rw [pyStrip_longPlain, pyLower_longPlain]
  rintro ⟨hsw | hsw, _⟩ <;>
    exact absurd hsw (by
      rw [show pyStartsWith longPlainQuery _ =
        List.isPrefixOf _ (List.replicate 5001 'a') from rfl]
      rw [isPrefixOf_replicate_ne _ _ 5001 'a' (by decide)]
      decide)

/-- Concrete instance of amended claim C10: the 5001-character all-`a`
query is rejected with exactly the reason `Query too long`. -/
theorem validate_sql_long_witness :
    5000 < (pyStrip longPlainQuery).length ∧
    validate_sql longPlainQuery = (false, "Query too long") := by
  have hlen : 5000 < (pyStrip longPlainQuery).length := by
    rw [pyStrip_longPlain, length_longPlain]
    decide
  exact ⟨hlen,
    (validate_sql_long longPlainQuery hlen).2 longPlain_no_keyword longPlain_not_ud⟩

end Gatekeeper
